import Mathlib

/-!
Shallow embedding of the waypoint_ts client library.

`src/models.ts` is embedded as `ActionType`, `Command`, `Result` and their
constructors / codec entry points; `src/client.ts`'s facade verbs as command
builders and `FacadeAction`s; `src/_wsConnection.ts` as an explicit state
machine `ConnState` driven by a single sequential event stream `Event`
(socket events, timer firings, and the public `connect`/`send`/`close`
calls), mirroring the single-threaded event-loop execution model.

JavaScript promise settlement is made observable: every `resolve`/`reject`
call executed by a handler appends `(requestId, outcome)` to the
`settled` log, so exactly-once settlement is the statement that each id
occurs at most once in the log.  `setTimeout`/`clearTimeout` is modelled by
the `activeTimers` set: a per-call timer can only fire while its id is in
the set, and clearing removes it.
-/

namespace Waypoint

/-- The closed enumeration of action kinds (src/models.ts, `ActionType`). -/
inductive ActionType
  | click
  | typeText
  | scroll
  | goto
  | screenshot
  | setViewportSize
  deriving DecidableEq

/-- The optional fields accepted by the `Command` constructor
(src/models.ts, `CommandPayload` minus `action_type`). -/
structure CommandFields where
  x : Option Int := none
  y : Option Int := none
  text : Option String := none
  delta_x : Option Int := none
  delta_y : Option Int := none
  url : Option String := none
  width : Option Int := none
  height : Option Int := none
  timeout : Option Nat := none
  deriving DecidableEq

/-- A command record (src/models.ts, `Command`).  `timeout` is in ms. -/
structure Command where
  action_type : ActionType
  x : Option Int := none
  y : Option Int := none
  text : Option String := none
  delta_x : Option Int := none
  delta_y : Option Int := none
  url : Option String := none
  width : Option Int := none
  height : Option Int := none
  timeout : Nat := 5000
  deriving DecidableEq

/-- The `Command` constructor: copies the fields and defaults `timeout`
to 5000 ms when absent (src/models.ts lines 35-42). -/
def Command.make (a : ActionType) (fields : CommandFields) : Command :=
  { action_type := a
    x := fields.x
    y := fields.y
    text := fields.text
    delta_x := fields.delta_x
    delta_y := fields.delta_y
    url := fields.url
    width := fields.width
    height := fields.height
    timeout := fields.timeout.getD 5000 }

/-- The optional fields of a decoded result record (src/models.ts,
`ResultPayload`); every field may be absent on the wire. -/
structure ResultPayload where
  success : Option Bool := none
  image : Option String := none
  image_url : Option String := none
  error_message : Option String := none
  deriving DecidableEq

/-- A result value object (src/models.ts, `Result`).  The image is kept as
its base64 text; decoding the bytes is irrelevant to the protocol. -/
structure Result where
  success : Option Bool
  image : Option String
  image_url : Option String
  error_message : Option String
  deriving DecidableEq

/-- The `Result` constructor (src/models.ts lines 78-83).  JS truthiness:
an empty image string is falsy, so it yields an absent image. -/
def Result.ofPayload (p : ResultPayload) : Result :=
  { success := p.success
    error_message := p.error_message
    image := match p.image with
      | some str => if str = "" then none else some str
      | none => none
    image_url := p.image_url }

/-- An inbound wire message: either JSON parsing succeeds, yielding the
recognised optional fields (unknown fields dropped), or JSON parsing
throws with some message. -/
inductive RawData
  | parsed (p : ResultPayload)
  | malformed (err : String)
  deriving DecidableEq

/-- `Result.load` (src/models.ts lines 106-110): parse, then build the
record; a parse failure propagates as the thrown error. -/
def Result.load : RawData → Except String Result
  | .parsed p => .ok (Result.ofPayload p)
  | .malformed err => .error err

/-! ### Facade verbs (src/client.ts) -/

/-- `Waypoint.goto` builds a GOTO command; the explicit option defaults to
5000 ms (src/client.ts lines 84-87). -/
def gotoCommand (url : String) (timeoutOpt : Option Nat) : Command :=
  Command.make .goto { url := some url, timeout := some (timeoutOpt.getD 5000) }

/-- `Waypoint.click` (src/client.ts lines 89-91): no timeout field given. -/
def clickCommand (x y : Int) : Command :=
  Command.make .click { x := some x, y := some y }

/-- `Waypoint.type` (src/client.ts lines 93-95). -/
def typeCommand (text : String) : Command :=
  Command.make .typeText { text := some text }

/-- `Waypoint.scroll` (src/client.ts lines 97-101); dx defaults to 0 and
dy to 100 at the call site. -/
def scrollCommand (dx dy : Int) : Command :=
  Command.make .scroll { delta_x := some dx, delta_y := some dy }

/-- `Waypoint.screenshot`'s command (src/client.ts line 122). -/
def screenshotCommand : Command :=
  Command.make .screenshot {}

/-- What a facade verb does: either it builds a `Command` and hands it to
`_send` (which forwards to the connection manager), or it produces a
`Result` locally without touching the connection. -/
inductive FacadeAction
  | sendCmd (c : Command)
  | localResult (r : Result)
  deriving DecidableEq

/-- Whether a facade action reaches the connection manager at all. -/
def FacadeAction.isSend : FacadeAction → Bool
  | .sendCmd _ => true
  | .localResult _ => false

def gotoAction (url : String) (timeoutOpt : Option Nat) : FacadeAction :=
  .sendCmd (gotoCommand url timeoutOpt)

def clickAction (x y : Int) : FacadeAction :=
  .sendCmd (clickCommand x y)

def typeAction (text : String) : FacadeAction :=
  .sendCmd (typeCommand text)

def scrollAction (dx dy : Int) : FacadeAction :=
  .sendCmd (scrollCommand dx dy)

def screenshotAction : FacadeAction :=
  .sendCmd screenshotCommand

structure ViewportSize where
  width : Int
  height : Int
  deriving DecidableEq

/-- `Waypoint.setViewport` (src/client.ts lines 169-177): it logs that the
command is ignored and returns a synthetic success `Result`; it never
builds a `Command` and never calls `_send`. -/
def setViewportAction (_size : ViewportSize) : FacadeAction :=
  .localResult { success := some true, image := none, image_url := none,
                 error_message := none }

/-! ### The connection manager (src/_wsConnection.ts) -/

/-- One in-flight request (src/_wsConnection.ts, `PendingRequest`).  The
setTimeout handle is modelled by membership of `id` in
`ConnState.activeTimers`; the `timeout` field records the duration the
timer was registered with (the ms argument of the setTimeout call). -/
structure PendingRequest where
  id : Nat
  command : Command
  completed : Bool
  timeout : Nat
  deriving DecidableEq

/-- Which `resolve`/`reject` call settled a pending promise. -/
inductive SettleOutcome
  | result (r : Result)
  | decodeErr (e : String)
  | cmdTimeout
  | connError (msg : String)
  | connClosedUnexpected
  | connClosing
  deriving DecidableEq

/-- WebSocket readyState. -/
inductive SocketState
  | connecting
  | opened
  | closing
  | closed
  deriving DecidableEq

/-- One WebSocket object, identified by its creation index. -/
structure Socket where
  sid : Nat
  state : SocketState
  deriving DecidableEq

/-- The mutable fields of `_WsConnection`, plus the observation logs:
`sockets` records every WebSocket ever constructed (so that socket
lifetimes are visible) and `settled` records every promise settlement. -/
structure ConnState where
  conn : Option Nat
  sockets : List Socket
  pendingRequests : List PendingRequest
  requestCounter : Nat
  pingActive : Bool
  isAlive : Bool
  activeTimers : List Nat
  settled : List (Nat × SettleOutcome)
  nextSid : Nat
  pingInterval : Nat
  responseTimeout : Nat
  deriving DecidableEq

/-- The state after the constructor ran (src/_wsConnection.ts lines
23-33): no socket, no pending requests, no timers. -/
def ConnState.init (pingInterval responseTimeout : Nat) : ConnState :=
  { conn := none, sockets := [], pendingRequests := [], requestCounter := 0,
    pingActive := false, isAlive := false, activeTimers := [], settled := [],
    nextSid := 0, pingInterval := pingInterval,
    responseTimeout := responseTimeout }

/-- Ids of the requests currently in the registry, oldest first. -/
def pendingIds (s : ConnState) : List Nat :=
  s.pendingRequests.map (fun p => p.id)

/-- How many times request `id` has been settled (resolved or rejected). -/
def settleCount (s : ConnState) (id : Nat) : Nat :=
  s.settled.countP (fun e => e.1 == id)

def updateSocket (sid : Nat) (st : SocketState) (l : List Socket) : List Socket :=
  l.map (fun sk => if sk.sid = sid then { sk with state := st } else sk)

/-- The socket `this.conn` currently refers to, if any. -/
def currentSocket (s : ConnState) : Option Socket :=
  match s.conn with
  | some sid => s.sockets.find? (fun sk => sk.sid == sid)
  | none => none

/-- `get isOpen` (src/_wsConnection.ts lines 210-212): a socket is held
and its readyState is OPEN. -/
def ConnState.isOpen (s : ConnState) : Bool :=
  match currentSocket s with
  | some sk => sk.state == .opened
  | none => false

/-- A socket that has been constructed and is neither closing nor closed. -/
def Socket.isLive (sk : Socket) : Bool :=
  sk.state == .connecting || sk.state == .opened

/-- `connect()` up to the open await (src/_wsConnection.ts lines 35-44):
a no-op when `isOpen`; otherwise a fresh WebSocket is constructed and
stored in `conn`.  Nothing terminates a previously stored socket. -/
def connectStep (s : ConnState) : ConnState :=
  if s.isOpen then s
  else
    { s with
      sockets := s.sockets ++ [{ sid := s.nextSid, state := .connecting }],
      conn := some s.nextSid,
      nextSid := s.nextSid + 1 }

/-- The open event on the current socket: `connect` resumes past the
await, installs the handlers, sets `isAlive = true` and starts the
heartbeat (src/_wsConnection.ts lines 46-98). -/
def openStep (s : ConnState) : ConnState :=
  match s.conn with
  | some sid =>
      if (s.sockets.find? (fun sk => sk.sid == sid)).any
          (fun sk => sk.state == .connecting) then
        { s with sockets := updateSocket sid .opened s.sockets,
                 isAlive := true, pingActive := true }
      else s
  | none => s

/-- How the message handler settles the claimed request: resolve with the
decoded result, or reject with the thrown decode error (the try/catch of
src/_wsConnection.ts lines 53-58). -/
def messageOutcome (d : RawData) : SettleOutcome :=
  match Result.load d with
  | .ok r => SettleOutcome.result r
  | .error e => SettleOutcome.decodeErr e

/-- The message handler (src/_wsConnection.ts lines 47-60): take the
first not-completed pending request; mark it completed, clear its timer,
remove it from the registry, then decode — resolve on success, reject
with the thrown error on decode failure.  No pending request: drop. -/
def handleMessage (d : RawData) (s : ConnState) : ConnState :=
  match s.pendingRequests.find? (fun p => !p.completed) with
  | none => s
  | some pending =>
      { s with
        pendingRequests := s.pendingRequests.filter (fun q => q.id != pending.id),
        activeTimers := s.activeTimers.erase pending.id,
        settled := s.settled ++ [(pending.id, messageOutcome d)] }

/-- The ids whose timers the identical reject-all forEach blocks clear:
every not-yet-completed pending request. -/
def rejectedIds (s : ConnState) : List Nat :=
  (s.pendingRequests.filter (fun p => !p.completed)).map (fun p => p.id)

/-- The settlement log entries the reject-all forEach appends. -/
def rejectedSettles (o : SettleOutcome) (s : ConnState) : List (Nat × SettleOutcome) :=
  (s.pendingRequests.filter (fun p => !p.completed)).map (fun p => (p.id, o))

/-- The error handler (src/_wsConnection.ts lines 63-74): reject every
not-completed pending request with the websocket error, clear their
timers, empty the registry.  Note: it does not touch the ping timer. -/
def handleError (msg : String) (s : ConnState) : ConnState :=
  { s with
    settled := s.settled ++ rejectedSettles (.connError msg) s,
    activeTimers := s.activeTimers.filter (fun t => !(rejectedIds s).contains t),
    pendingRequests := [] }

/-- The close handler (src/_wsConnection.ts lines 77-89): stopPing, then
reject every not-completed pending request with the unexpected-close
error, clear their timers, empty the registry.  The socket is closed. -/
def handleClose (s : ConnState) : ConnState :=
  { s with
    pingActive := false,
    sockets := match s.conn with
      | some sid => updateSocket sid .closed s.sockets
      | none => s.sockets,
    settled := s.settled ++ rejectedSettles .connClosedUnexpected s,
    activeTimers := s.activeTimers.filter (fun t => !(rejectedIds s).contains t),
    pendingRequests := [] }

/-- The pong handler (src/_wsConnection.ts lines 93-95). -/
def pongStep (s : ConnState) : ConnState :=
  { s with isAlive := true }

/-- What one heartbeat tick did. -/
inductive TickAction
  | stopped
  | terminated
  | probed
  deriving DecidableEq

/-- One tick of the ping interval (src/_wsConnection.ts lines 105-119):
not open — stop the interval; open but no pong observed since the last
tick — terminate the socket (the close event then fires separately);
otherwise reset the liveness flag and emit a ping probe. -/
def pingTick (s : ConnState) : ConnState × TickAction :=
  if s.isOpen = false then
    ({ s with pingActive := false }, .stopped)
  else if s.isAlive = false then
    (match s.conn with
     | some sid => { s with sockets := updateSocket sid .closed s.sockets }
     | none => s,
     .terminated)
  else
    ({ s with isAlive := false }, .probed)

/-- A per-call setTimeout firing (src/_wsConnection.ts lines 185-193).
Only a timer that has not been cleared can fire; the callback looks the
request up by id and, if still pending, marks it completed, removes it
and rejects with the timeout error. -/
def timerFireStep (id : Nat) (s : ConnState) : ConnState :=
  if s.activeTimers.contains id then
    let s1 := { s with activeTimers := s.activeTimers.erase id }
    match s1.pendingRequests.find? (fun p => p.id == id) with
    | some pending =>
        if !pending.completed then
          { s1 with
            pendingRequests := s1.pendingRequests.filter (fun q => q.id != id),
            settled := s1.settled ++ [(id, SettleOutcome.cmdTimeout)] }
        else s1
    | none => s1
  else s

/-- `close()` (src/_wsConnection.ts lines 129-170): stopPing, reject every
not-completed pending request with the closing error and clear their
timers, empty the registry; then, if the socket is open, perform the close
handshake (the socket ends closed), and finally drop the handle. -/
def closeStep (s : ConnState) : ConnState :=
  { s with
    pingActive := false,
    settled := s.settled ++ rejectedSettles .connClosing s,
    activeTimers := s.activeTimers.filter (fun t => !(rejectedIds s).contains t),
    pendingRequests := [],
    sockets := match s.conn with
      | some sid =>
          if s.isOpen then updateSocket sid .closed s.sockets else s.sockets
      | none => s.sockets,
    conn := none }

/-- `send(cmd)` (src/_wsConnection.ts lines 172-208): throws when not
open (nothing is registered); otherwise registers a new pending request
under the next counter value with a timer set to the connection-level
`responseTimeout`, and writes the encoded command to the socket. -/
def sendStep (cmd : Command) (s : ConnState) : ConnState :=
  if s.isOpen then
    let rid := s.requestCounter + 1
    { s with
      requestCounter := rid,
      pendingRequests := s.pendingRequests ++
        [{ id := rid, command := cmd, completed := false,
           timeout := s.responseTimeout }],
      activeTimers := s.activeTimers ++ [rid] }
  else s

/-- The events the single-threaded event loop can deliver. -/
inductive Event
  | connect
  | openEvt
  | message (d : RawData)
  | errorEvt (msg : String)
  | closeEvt
  | pong
  | tick
  | timerFire (id : Nat)
  | closeCall
  | send (c : Command)
  deriving DecidableEq

/-- One event-loop turn. The ping tick only runs while the interval is
installed; a per-call timer only fires while uncancelled (enforced
inside `timerFireStep`). -/
def step (s : ConnState) (e : Event) : ConnState :=
  match e with
  | .connect => connectStep s
  | .openEvt => openStep s
  | .message d => handleMessage d s
  | .errorEvt msg => handleError msg s
  | .closeEvt => handleClose s
  | .pong => pongStep s
  | .tick => if s.pingActive then (pingTick s).1 else s
  | .timerFire id => timerFireStep id s
  | .closeCall => closeStep s
  | .send c => sendStep c s

/-- Run a whole event trace. -/
def run (s : ConnState) : List Event → ConnState
  | [] => s
  | e :: tr => run (step s e) tr

/-- Whether an event is a message whose payload parses as JSON. -/
def Event.decodableMsg : Event → Bool
  | .message (.malformed _) => false
  | _ => true

/-- Whether an outcome is one of the three the specification names:
decoded result, command timeout, or connection fault (error / unexpected
close / explicit close).  Only a decode failure falls outside. -/
def SettleOutcome.isSpecOutcome : SettleOutcome → Bool
  | .decodeErr _ => false
  | _ => true

/-- What `Waypoint._send` does with a facade action: a built command goes
to `_WsConnection.send` (src/client.ts lines 180-191); a local result
never reaches the connection. -/
def dispatch (a : FacadeAction) (s : ConnState) : ConnState :=
  match a with
  | .sendCmd c => sendStep c s
  | .localResult _ => s

/-- The one-at-a-time (await-then-send) driver: each command is sent and
its reply consumed before the next send, the peer answering exactly once
per request in send order. -/
def runPairs (s : ConnState) : List (Command × ResultPayload) → ConnState
  | [] => s
  | (c, r) :: t => runPairs (handleMessage (.parsed r) (sendStep c s)) t

/-- The settlement log a run of `runPairs` is expected to append when the
counter starts at `rc`: the i-th command's request id paired with the
decoding of the i-th reply. -/
def expectedSettles (rc : Nat) : List (Command × ResultPayload) → List (Nat × SettleOutcome)
  | [] => []
  | (_, r) :: t =>
      (rc + 1, SettleOutcome.result (Result.ofPayload r)) :: expectedSettles (rc + 1) t

/-- Every settlement recorded so far used one of the three specified
outcome kinds (decoded result / timeout / connection fault). -/
def specSettled (s : ConnState) : Prop :=
  ∀ e ∈ s.settled, e.2.isSpecOutcome = true

/-! ### The registry invariant -/

/-- The connection-manager invariant: registry entries are uncompleted,
their ids strictly increase (send order) and are bounded by the counter,
the live per-call timers are exactly the pending ids, and the settlement
log settles each issued id at most once — an issued id being unsettled
precisely while its request is still in the registry. -/
structure Inv (s : ConnState) : Prop where
  notCompleted : ∀ p ∈ s.pendingRequests, p.completed = false
  idsSorted : s.pendingRequests.Pairwise (fun p q => p.id < q.id)
  idsPos : ∀ p ∈ s.pendingRequests, 1 ≤ p.id
  idsBound : ∀ p ∈ s.pendingRequests, p.id ≤ s.requestCounter
  timersMatch : s.activeTimers = pendingIds s
  settleBound : ∀ e ∈ s.settled, 1 ≤ e.1 ∧ e.1 ≤ s.requestCounter
  settleOnce : ∀ i, settleCount s i ≤ 1
  settleIffGone : ∀ i, 1 ≤ i → i ≤ s.requestCounter →
      (settleCount s i = 0 ↔ i ∈ pendingIds s)

theorem Inv.idsNodup {s : ConnState} (h : Inv s) : (pendingIds s).Nodup := by
  unfold pendingIds
  exact List.pairwise_map.mpr (h.idsSorted.imp fun hlt => Nat.ne_of_lt hlt)

theorem mem_pendingIds_bounds {s : ConnState} (h : Inv s) {i : Nat}
    (hi : i ∈ pendingIds s) : 1 ≤ i ∧ i ≤ s.requestCounter := by
  obtain ⟨p, hp, rfl⟩ := List.mem_map.mp hi
  exact ⟨h.idsPos p hp, h.idsBound p hp⟩

/-- A state whose registry fields agree with an invariant state satisfies
the invariant; used for the steps that only touch sockets and flags. -/
theorem inv_of_registry_eq {s sq : ConnState} (h : Inv s)
    (hp : sq.pendingRequests = s.pendingRequests)
    (ht : sq.activeTimers = s.activeTimers)
    (hs : sq.settled = s.settled)
    (hr : sq.requestCounter = s.requestCounter) : Inv sq := by
  constructor
  · rw [hp]; exact h.notCompleted
  · rw [hp]; exact h.idsSorted
  · rw [hp]; exact h.idsPos
  · rw [hp, hr]; exact h.idsBound
  · have hm := h.timersMatch
    unfold pendingIds at hm ⊢
    rw [ht, hp]; exact hm
  · rw [hs, hr]; exact h.settleBound
  · intro i; unfold settleCount; rw [hs]; exact h.settleOnce i
  · intro i h1 h2
    unfold settleCount pendingIds
    rw [hs, hp]
    rw [hr] at h2
    exact h.settleIffGone i h1 h2

/-! Counting helpers for the settlement log. -/

theorem countP_pair_map_nat (l : List Nat) (o : SettleOutcome) (i : Nat) :
    (l.map (fun n => (n, o))).countP (fun e => e.1 == i) = l.count i := by
  rw [List.countP_map, List.count_eq_countP]; rfl

theorem countP_settle_map (l : List PendingRequest) (o : SettleOutcome) (i : Nat) :
    (l.map (fun p => (p.id, o))).countP (fun e => e.1 == i) =
      (l.map (fun p => p.id)).count i := by
  rw [List.countP_map, List.count_eq_countP, List.countP_map]; rfl

theorem map_id_filter_ne (l : List PendingRequest) (i : Nat) :
    (l.filter (fun q => q.id != i)).map (fun p => p.id) =
      (l.map (fun p => p.id)).filter (fun n => n != i) := by
  induction l with
  | nil => rfl
  | cons a t ih =>
      by_cases hai : a.id = i
      · simp only [List.filter_cons, List.map_cons, hai, bne_self_eq_false]
        exact ih
      · have hbne : (a.id != i) = true := bne_iff_ne.mpr hai
        simp only [List.filter_cons, List.map_cons, hbne, if_true, ih]

/-! Effect of the identical reject-all blocks under the invariant. -/

theorem rejectedIds_eq {s : ConnState} (h : Inv s) : rejectedIds s = pendingIds s := by
  unfold rejectedIds pendingIds
  rw [List.filter_eq_self.mpr]
  intro p hp
  simp [h.notCompleted p hp]

theorem rejectedSettles_eq {s : ConnState} (h : Inv s) (o : SettleOutcome) :
    rejectedSettles o s = (pendingIds s).map (fun i => (i, o)) := by
  unfold rejectedSettles pendingIds
  rw [List.filter_eq_self.mpr, List.map_map]
  · rfl
  · intro p hp
    simp [h.notCompleted p hp]

theorem timers_cleared {s : ConnState} (h : Inv s) :
    s.activeTimers.filter (fun t => !(rejectedIds s).contains t) = [] := by
  rw [List.filter_eq_nil_iff]
  intro t ht
  rw [h.timersMatch] at ht
  have hc : (rejectedIds s).contains t = true := by
    rw [rejectedIds_eq h]
    exact List.elem_eq_true_of_mem ht
  simp only [hc]
  decide

/-- Settlement count after a reject-all block: one settlement was added
for each id that was pending, none for any other id. -/
theorem settleCount_after_rejectAll {s : ConnState} (h : Inv s) (o : SettleOutcome) (i : Nat) :
    (s.settled ++ rejectedSettles o s).countP (fun e => e.1 == i) =
      settleCount s i + (pendingIds s).count i := by
  rw [List.countP_append, rejectedSettles_eq h o, countP_pair_map_nat]
  rfl

/-- The common core of `handleError`, `handleClose` and `closeStep`
preserves the invariant. -/
theorem inv_rejectAllAux {s sq : ConnState} (h : Inv s) (o : SettleOutcome)
    (hp : sq.pendingRequests = [])
    (ht : sq.activeTimers = s.activeTimers.filter (fun t => !(rejectedIds s).contains t))
    (hs : sq.settled = s.settled ++ rejectedSettles o s)
    (hr : sq.requestCounter = s.requestCounter) : Inv sq := by
  constructor
  · rw [hp]; intro p hmem; cases hmem
  · rw [hp]; exact List.Pairwise.nil
  · rw [hp]; intro p hmem; cases hmem
  · rw [hp]; intro p hmem; cases hmem
  · rw [ht, timers_cleared h]
    unfold pendingIds
    rw [hp]; rfl
  · intro e he
    rw [hs] at he
    rw [hr]
    rcases List.mem_append.mp he with hold | hnew
    · exact h.settleBound e hold
    · rw [rejectedSettles_eq h o] at hnew
      obtain ⟨i, hi, rfl⟩ := List.mem_map.mp hnew
      exact mem_pendingIds_bounds h hi
  · intro i
    unfold settleCount
    rw [hs, settleCount_after_rejectAll h o i]
    by_cases hmem : i ∈ pendingIds s
    · have h0 : settleCount s i = 0 :=
        (h.settleIffGone i (mem_pendingIds_bounds h hmem).1
          (mem_pendingIds_bounds h hmem).2).mpr hmem
      rw [h0, List.count_eq_one_of_mem h.idsNodup hmem]
    · rw [List.count_eq_zero.mpr hmem]
      exact Nat.le_trans (Nat.le_of_eq (Nat.add_zero _)) (h.settleOnce i)
  · intro i h1 h2
    rw [hr] at h2
    unfold settleCount pendingIds
    rw [hs, hp, settleCount_after_rejectAll h o i]
    simp only [List.map_nil, List.not_mem_nil, iff_false]
    by_cases hmem : i ∈ pendingIds s
    · have h0 : settleCount s i = 0 := (h.settleIffGone i h1 h2).mpr hmem
      rw [h0, List.count_eq_one_of_mem h.idsNodup hmem]
      exact Nat.one_ne_zero
    · have h0 : settleCount s i ≠ 0 := fun hz =>
        hmem ((h.settleIffGone i h1 h2).mp hz)
      rw [List.count_eq_zero.mpr hmem, Nat.add_zero]
      exact h0

theorem inv_handleError {s : ConnState} (h : Inv s) (msg : String) :
    Inv (handleError msg s) :=
  inv_rejectAllAux h (.connError msg) rfl rfl rfl rfl

theorem inv_handleClose {s : ConnState} (h : Inv s) :
    Inv (handleClose s) :=
  inv_rejectAllAux h .connClosedUnexpected rfl rfl rfl rfl

theorem inv_closeStep {s : ConnState} (h : Inv s) :
    Inv (closeStep s) :=
  inv_rejectAllAux h .connClosing rfl rfl rfl rfl

/-! Effect of the message handler under the invariant. -/

theorem find_not_completed_eq_head (l : List PendingRequest)
    (h : ∀ p ∈ l, p.completed = false) :
    l.find? (fun p => !p.completed) = l.head? := by
  cases l with
  | nil => rfl
  | cons a t =>
      have ha : a.completed = false := h a (List.mem_cons_self a t)
      rw [List.find?_cons]
      simp [ha]

theorem filter_ne_head (p : PendingRequest) (rest : List PendingRequest)
    (h : ∀ q ∈ rest, p.id < q.id) :
    (p :: rest).filter (fun q => q.id != p.id) = rest := by
  rw [List.filter_cons_of_neg, List.filter_eq_self.mpr]
  · intro q hq
    exact bne_iff_ne.mpr (Nat.ne_of_gt (h q hq))
  · simp

theorem countP_single_pair (pid : Nat) (o : SettleOutcome) (i : Nat) :
    ([(pid, o)] : List (Nat × SettleOutcome)).countP (fun e => e.1 == i) =
      if pid = i then 1 else 0 := by
  by_cases h : pid = i <;> simp [List.countP_cons, h]

theorem handleMessage_empty (d : RawData) {s : ConnState}
    (h : s.pendingRequests = []) : handleMessage d s = s := by
  unfold handleMessage
  rw [h]
  rfl

theorem handleMessage_cons {s : ConnState} (h : Inv s) {p : PendingRequest}
    {rest : List PendingRequest} (hp : s.pendingRequests = p :: rest) (d : RawData) :
    handleMessage d s =
      { s with pendingRequests := rest,
               activeTimers := rest.map (fun q => q.id),
               settled := s.settled ++ [(p.id, messageOutcome d)] } := by
  have hfind : s.pendingRequests.find? (fun q => !q.completed) = some p := by
    rw [find_not_completed_eq_head s.pendingRequests h.notCompleted, hp]
    rfl
  have horder : ∀ q ∈ rest, p.id < q.id := by
    have := h.idsSorted
    rw [hp, List.pairwise_cons] at this
    exact this.1
  have hfilter : s.pendingRequests.filter (fun q => q.id != p.id) = rest := by
    rw [hp]
    exact filter_ne_head p rest horder
  have htimers : s.activeTimers.erase p.id = rest.map (fun q => q.id) := by
    rw [h.timersMatch]
    unfold pendingIds
    rw [hp, List.map_cons, List.erase_cons_head]
  unfold handleMessage
  rw [hfind]
  dsimp only
  rw [hfilter, htimers]

theorem inv_handleMessage {s : ConnState} (h : Inv s) (d : RawData) :
    Inv (handleMessage d s) := by
  cases hp : s.pendingRequests with
  | nil => rw [handleMessage_empty d hp]; exact h
  | cons p rest =>
      rw [handleMessage_cons h hp d]
      have hmemp : p ∈ s.pendingRequests := by rw [hp]; exact List.mem_cons_self p rest
      have hrest : ∀ q ∈ rest, q ∈ s.pendingRequests := by
        intro q hq; rw [hp]; exact List.mem_cons_of_mem p hq
      have hpid : 1 ≤ p.id ∧ p.id ≤ s.requestCounter := ⟨h.idsPos p hmemp, h.idsBound p hmemp⟩
      have hpidmem : p.id ∈ pendingIds s := by
        unfold pendingIds; exact List.mem_map_of_mem (fun q => q.id) hmemp
      have hzero : settleCount s p.id = 0 :=
        (h.settleIffGone p.id hpid.1 hpid.2).mpr hpidmem
      have hnotrest : p.id ∉ rest.map (fun q => q.id) := by
        intro hmem
        obtain ⟨q, hq, hqid⟩ := List.mem_map.mp hmem
        have := h.idsSorted
        rw [hp, List.pairwise_cons] at this
        exact Nat.ne_of_lt (this.1 q hq) hqid.symm
      constructor
      · intro q hq; exact h.notCompleted q (hrest q hq)
      · have := h.idsSorted
        rw [hp, List.pairwise_cons] at this
        exact this.2
      · intro q hq; exact h.idsPos q (hrest q hq)
      · intro q hq; exact h.idsBound q (hrest q hq)
      · rfl
      · intro e he
        rcases List.mem_append.mp he with hold | hnew
        · exact h.settleBound e hold
        · rw [List.mem_singleton.mp hnew]
          exact hpid
      · intro i
        unfold settleCount
        rw [List.countP_append, countP_single_pair]
        by_cases hip : p.id = i
        · have hz : settleCount s i = 0 := hip ▸ hzero
          unfold settleCount at hz
          rw [hz, if_pos hip]
        · rw [if_neg hip, Nat.add_zero]
          exact h.settleOnce i
      · intro i h1 h2
        have h2s : i ≤ s.requestCounter := h2
        unfold settleCount pendingIds
        rw [List.countP_append, countP_single_pair]
        by_cases hip : p.id = i
        · have hz : settleCount s i = 0 := hip ▸ hzero
          unfold settleCount at hz
          rw [hz, if_pos hip]
          constructor
          · intro hcontra
            exact absurd hcontra (by omega)
          · intro hmem
            exact absurd (hip ▸ hmem) hnotrest
        · rw [if_neg hip, Nat.add_zero]
          have hiff := h.settleIffGone i h1 h2s
          unfold settleCount pendingIds at hiff
          rw [hp, List.map_cons, List.mem_cons] at hiff
          rw [hiff]
          constructor
          · intro hmem
            rcases hmem with heq | hmem
            · exact absurd heq.symm hip
            · exact hmem
          · intro hmem
            exact Or.inr hmem

/-! Effect of a per-call timer firing under the invariant. -/

theorem find_by_id (l : List PendingRequest) (i : Nat)
    (hmem : i ∈ l.map (fun p => p.id)) :
    ∃ p, l.find? (fun p => p.id == i) = some p ∧ p.id = i := by
  induction l with
  | nil => cases hmem
  | cons a t ih =>
      by_cases hai : a.id = i
      · refine ⟨a, ?_, hai⟩
        rw [List.find?_cons]
        simp [hai]
      · have hne : (a.id == i) = false := beq_eq_false_iff_ne.mpr hai
        rw [List.map_cons, List.mem_cons] at hmem
        rcases hmem with heq | hmem
        · exact absurd heq.symm hai
        · obtain ⟨p, hfind, hpid⟩ := ih hmem
          refine ⟨p, ?_, hpid⟩
          rw [List.find?_cons, hne]
          exact hfind

theorem timerFire_effect {s : ConnState} (h : Inv s) {i : Nat}
    (hmem : i ∈ s.activeTimers) :
    timerFireStep i s =
      { s with
        pendingRequests := s.pendingRequests.filter (fun q => q.id != i),
        activeTimers := (pendingIds s).filter (fun n => n != i),
        settled := s.settled ++ [(i, SettleOutcome.cmdTimeout)] } := by
  have hmem2 : i ∈ pendingIds s := h.timersMatch ▸ hmem
  have hcont : s.activeTimers.contains i = true := List.elem_eq_true_of_mem hmem
  obtain ⟨p, hfind, hpid⟩ := find_by_id s.pendingRequests i hmem2
  have hpmem : p ∈ s.pendingRequests := List.mem_of_find?_eq_some hfind
  have hpc : (!p.completed) = true := by rw [h.notCompleted p hpmem]; rfl
  have herase : s.activeTimers.erase i = (pendingIds s).filter (fun n => n != i) := by
    rw [h.timersMatch]
    exact h.idsNodup.erase_eq_filter i
  unfold timerFireStep
  rw [if_pos hcont]
  dsimp only
  rw [hfind]
  dsimp only
  rw [if_pos hpc, herase]

theorem timerFireStep_not_active {s : ConnState} {i : Nat}
    (hmem : i ∉ s.activeTimers) : timerFireStep i s = s := by
  unfold timerFireStep
  rw [if_neg]
  intro hc
  exact hmem (List.mem_of_elem_eq_true hc)

theorem inv_timerFireStep {s : ConnState} (h : Inv s) (i : Nat) :
    Inv (timerFireStep i s) := by
  by_cases hmem : i ∈ s.activeTimers
  · have hmem2 : i ∈ pendingIds s := h.timersMatch ▸ hmem
    have hbound := mem_pendingIds_bounds h hmem2
    have hzero : settleCount s i = 0 :=
      (h.settleIffGone i hbound.1 hbound.2).mpr hmem2
    rw [timerFire_effect h hmem]
    constructor
    · intro q hq
      exact h.notCompleted q (List.mem_filter.mp hq).1
    · exact h.idsSorted.filter _
    · intro q hq
      exact h.idsPos q (List.mem_filter.mp hq).1
    · intro q hq
      exact h.idsBound q (List.mem_filter.mp hq).1
    · unfold pendingIds
      dsimp only
      rw [map_id_filter_ne]
    · intro e he
      rcases List.mem_append.mp he with hold | hnew
      · exact h.settleBound e hold
      · rw [List.mem_singleton.mp hnew]
        exact hbound
    · intro j
      unfold settleCount
      rw [List.countP_append, countP_single_pair]
      by_cases hij : i = j
      · have hz : settleCount s j = 0 := hij ▸ hzero
        unfold settleCount at hz
        rw [hz, if_pos hij]
      · rw [if_neg hij, Nat.add_zero]
        exact h.settleOnce j
    · intro j h1 h2
      have h2s : j ≤ s.requestCounter := h2
      unfold settleCount pendingIds
      dsimp only
      rw [List.countP_append, countP_single_pair, map_id_filter_ne]
      by_cases hij : i = j
      · have hz : settleCount s j = 0 := hij ▸ hzero
        unfold settleCount at hz
        rw [hz, if_pos hij]
        constructor
        · intro hcontra
          exact absurd hcontra (by omega)
        · intro hmem3
          have := (List.mem_filter.mp hmem3).2
          rw [hij] at this
          exact absurd rfl (bne_iff_ne.mp this)
      · rw [if_neg hij, Nat.add_zero]
        have hiff := h.settleIffGone j h1 h2s
        unfold settleCount pendingIds at hiff
        rw [hiff]
        constructor
        · intro hmem3
          exact List.mem_filter.mpr ⟨hmem3, bne_iff_ne.mpr (fun he => hij he.symm)⟩
        · intro hmem3
          exact (List.mem_filter.mp hmem3).1
  · rw [timerFireStep_not_active hmem]
    exact h

/-! Effect of send and of the remaining steps; the reachability theorem. -/

theorem sendStep_open {s : ConnState} (cmd : Command) (h : s.isOpen = true) :
    sendStep cmd s =
      { s with
        requestCounter := s.requestCounter + 1,
        pendingRequests := s.pendingRequests ++
          [{ id := s.requestCounter + 1, command := cmd, completed := false,
             timeout := s.responseTimeout }],
        activeTimers := s.activeTimers ++ [s.requestCounter + 1] } := by
  unfold sendStep
  rw [if_pos h]

theorem sendStep_closed {s : ConnState} (cmd : Command) (h : ¬s.isOpen = true) :
    sendStep cmd s = s := by
  unfold sendStep
  rw [if_neg h]

theorem inv_sendStep {s : ConnState} (h : Inv s) (cmd : Command) :
    Inv (sendStep cmd s) := by
  by_cases ho : s.isOpen = true
  · rw [sendStep_open cmd ho]
    constructor
    · intro q hq
      rcases List.mem_append.mp hq with hold | hnew
      · exact h.notCompleted q hold
      · rw [List.mem_singleton.mp hnew]
    · rw [List.pairwise_append]
      refine ⟨h.idsSorted, List.pairwise_singleton _ _, ?_⟩
      intro a ha b hb
      rw [List.mem_singleton.mp hb]
      exact Nat.lt_succ_of_le (h.idsBound a ha)
    · intro q hq
      rcases List.mem_append.mp hq with hold | hnew
      · exact h.idsPos q hold
      · rw [List.mem_singleton.mp hnew]
        exact Nat.succ_le_succ (Nat.zero_le _)
    · intro q hq
      dsimp only
      rcases List.mem_append.mp hq with hold | hnew
      · exact Nat.le_succ_of_le (h.idsBound q hold)
      · rw [List.mem_singleton.mp hnew]
    · unfold pendingIds
      dsimp only
      rw [List.map_append, h.timersMatch]
      rfl
    · intro e he
      dsimp only
      have hb := h.settleBound e he
      exact ⟨hb.1, Nat.le_succ_of_le hb.2⟩
    · intro j
      exact h.settleOnce j
    · intro j h1 h2
      dsimp only at h2
      unfold settleCount pendingIds
      dsimp only
      rw [List.map_append, List.mem_append]
      by_cases hj : j = s.requestCounter + 1
      · subst hj
        have hz : s.settled.countP (fun e => e.1 == s.requestCounter + 1) = 0 := by
          rw [List.countP_eq_zero]
          intro e he hbe
          have hb := h.settleBound e he
          have heq : e.1 = s.requestCounter + 1 := eq_of_beq hbe
          omega
        rw [hz]
        constructor
        · intro _
          exact Or.inr (List.mem_singleton.mpr rfl)
        · intro _
          rfl
      · have h2s : j ≤ s.requestCounter := by omega
        have hiff := h.settleIffGone j h1 h2s
        unfold settleCount pendingIds at hiff
        rw [hiff]
        constructor
        · intro hm
          exact Or.inl hm
        · intro hm
          rcases hm with hm | hm
          · exact hm
          · exact absurd (List.mem_singleton.mp hm) hj
  · rw [sendStep_closed cmd ho]
    exact h

theorem inv_connectStep {s : ConnState} (h : Inv s) : Inv (connectStep s) := by
  unfold connectStep
  split
  · exact h
  · exact inv_of_registry_eq h rfl rfl rfl rfl

theorem inv_openStep {s : ConnState} (h : Inv s) : Inv (openStep s) := by
  unfold openStep
  split
  · split
    · exact inv_of_registry_eq h rfl rfl rfl rfl
    · exact h
  · exact h

theorem inv_pongStep {s : ConnState} (h : Inv s) : Inv (pongStep s) :=
  inv_of_registry_eq h rfl rfl rfl rfl

theorem inv_pingTick {s : ConnState} (h : Inv s) : Inv (pingTick s).1 := by
  unfold pingTick
  split
  · exact inv_of_registry_eq h rfl rfl rfl rfl
  · split
    · split
      · exact inv_of_registry_eq h rfl rfl rfl rfl
      · exact h
    · exact inv_of_registry_eq h rfl rfl rfl rfl

theorem inv_step {s : ConnState} (h : Inv s) (e : Event) : Inv (step s e) := by
  cases e with
  | connect => exact inv_connectStep h
  | openEvt => exact inv_openStep h
  | message d => exact inv_handleMessage h d
  | errorEvt msg => exact inv_handleError h msg
  | closeEvt => exact inv_handleClose h
  | pong => exact inv_pongStep h
  | tick =>
      by_cases hp : s.pingActive = true
      · have he : step s .tick = (pingTick s).1 := by
          simp only [step]
          rw [if_pos hp]
        rw [he]
        exact inv_pingTick h
      · have he : step s .tick = s := by
          simp only [step]
          rw [if_neg hp]
        rw [he]
        exact h
  | timerFire i => exact inv_timerFireStep h i
  | closeCall => exact inv_closeStep h
  | send c => exact inv_sendStep h c

theorem inv_run {s : ConnState} (h : Inv s) (tr : List Event) : Inv (run s tr) := by
  induction tr generalizing s with
  | nil => exact h
  | cons e t ih => exact ih (inv_step h e)

theorem inv_init (pingMs respMs : Nat) : Inv (ConnState.init pingMs respMs) := by
  constructor
  · intro p hp; cases hp
  · exact List.Pairwise.nil
  · intro p hp; cases hp
  · intro p hp; cases hp
  · rfl
  · intro e he; cases he
  · intro i; exact Nat.zero_le 1
  · intro i h1 h2
    have : (ConnState.init pingMs respMs).requestCounter = 0 := rfl
    omega

/-- Every state the connection manager can reach from construction
satisfies the registry invariant. -/
theorem inv_reachable (pingMs respMs : Nat) (tr : List Event) :
    Inv (run (ConnState.init pingMs respMs) tr) :=
  inv_run (inv_init pingMs respMs) tr

/-! Settlement outcomes stay within the specified three kinds as long as
every inbound message parses. -/

theorem settled_connectStep (s : ConnState) : (connectStep s).settled = s.settled := by
  unfold connectStep
  split <;> rfl

theorem settled_openStep (s : ConnState) : (openStep s).settled = s.settled := by
  unfold openStep
  split
  · split <;> rfl
  · rfl

theorem settled_pingTick (s : ConnState) : (pingTick s).1.settled = s.settled := by
  unfold pingTick
  split
  · rfl
  · split
    · split <;> rfl
    · rfl

theorem specSettled_rejectAll {s : ConnState} (hs : specSettled s)
    (o : SettleOutcome) (ho : o.isSpecOutcome = true)
    (l : List (Nat × SettleOutcome)) (hl : l = s.settled ++ rejectedSettles o s) :
    ∀ e ∈ l, e.2.isSpecOutcome = true := by
  intro en hen
  rw [hl] at hen
  rcases List.mem_append.mp hen with hold | hnew
  · exact hs en hold
  · unfold rejectedSettles at hnew
    obtain ⟨p, _, rfl⟩ := List.mem_map.mp hnew
    exact ho

theorem specSettled_step {s : ConnState} (hinv : Inv s) (hs : specSettled s)
    (e : Event) (he : e.decodableMsg = true) : specSettled (step s e) := by
  cases e with
  | connect =>
      intro en hen
      rw [show (step s .connect).settled = s.settled from settled_connectStep s] at hen
      exact hs en hen
  | openEvt =>
      intro en hen
      rw [show (step s .openEvt).settled = s.settled from settled_openStep s] at hen
      exact hs en hen
  | message d =>
      cases d with
      | parsed r =>
          cases hp : s.pendingRequests with
          | nil =>
              intro en hen
              rw [show step s (.message (.parsed r)) = s from handleMessage_empty _ hp] at hen
              exact hs en hen
          | cons p rest =>
              intro en hen
              rw [show step s (.message (.parsed r)) = _ from
                    handleMessage_cons hinv hp (.parsed r)] at hen
              rcases List.mem_append.mp hen with hold | hnew
              · exact hs en hold
              · rw [List.mem_singleton.mp hnew]
                rfl
      | malformed msg => cases he
  | errorEvt msg =>
      exact specSettled_rejectAll hs (.connError msg) rfl _ rfl
  | closeEvt =>
      exact specSettled_rejectAll hs .connClosedUnexpected rfl _ rfl
  | pong =>
      exact hs
  | tick =>
      by_cases hp : s.pingActive = true
      · intro en hen
        have heq : step s .tick = (pingTick s).1 := by
          simp only [step]
          rw [if_pos hp]
        rw [heq, settled_pingTick s] at hen
        exact hs en hen
      · intro en hen
        have heq : step s .tick = s := by
          simp only [step]
          rw [if_neg hp]
        rw [heq] at hen
        exact hs en hen
  | timerFire i =>
      by_cases hmem : i ∈ s.activeTimers
      · intro en hen
        rw [show step s (.timerFire i) = _ from timerFire_effect hinv hmem] at hen
        rcases List.mem_append.mp hen with hold | hnew
        · exact hs en hold
        · rw [List.mem_singleton.mp hnew]
          rfl
      · intro en hen
        rw [show step s (.timerFire i) = s from timerFireStep_not_active hmem] at hen
        exact hs en hen
  | closeCall =>
      exact specSettled_rejectAll hs .connClosing rfl _ rfl
  | send c =>
      by_cases ho : s.isOpen = true
      · intro en hen
        rw [show step s (.send c) = _ from sendStep_open c ho] at hen
        exact hs en hen
      · intro en hen
        rw [show step s (.send c) = s from sendStep_closed c ho] at hen
        exact hs en hen

theorem specSettled_run {s : ConnState} (hinv : Inv s) (hs : specSettled s)
    (tr : List Event) (hall : tr.all Event.decodableMsg = true) :
    specSettled (run s tr) := by
  induction tr generalizing s with
  | nil => exact hs
  | cons e t ih =>
      rw [List.all_cons, Bool.and_eq_true] at hall
      exact ih (inv_step hinv e) (specSettled_step hinv hs e hall.1) hall.2

/-! One-at-a-time send/reply rounds. -/

theorem isOpen_sendStep (cmd : Command) (s : ConnState) :
    (sendStep cmd s).isOpen = s.isOpen := by
  unfold sendStep
  split <;> rfl

theorem isOpen_handleMessage (d : RawData) (s : ConnState) :
    (handleMessage d s).isOpen = s.isOpen := by
  unfold handleMessage
  split <;> rfl

/-- On an open connection with an empty registry, a send followed by its
reply registers the command under the next id and resolves exactly that
request with the decoded result. -/
theorem send_then_reply (s : ConnState) (c : Command) (r : ResultPayload)
    (hinv : Inv s) (hopen : s.isOpen = true) (hemp : s.pendingRequests = []) :
    (sendStep c s).pendingRequests =
      [{ id := s.requestCounter + 1, command := c, completed := false,
         timeout := s.responseTimeout }]
    ∧ (handleMessage (.parsed r) (sendStep c s)).settled =
        s.settled ++ [(s.requestCounter + 1, SettleOutcome.result (Result.ofPayload r))]
    ∧ (handleMessage (.parsed r) (sendStep c s)).pendingRequests = []
    ∧ (handleMessage (.parsed r) (sendStep c s)).requestCounter = s.requestCounter + 1
    ∧ (handleMessage (.parsed r) (sendStep c s)).isOpen = true := by
  have hinv1 : Inv (sendStep c s) := inv_sendStep hinv c
  have hpend1 : (sendStep c s).pendingRequests =
      { id := s.requestCounter + 1, command := c, completed := false,
        timeout := s.responseTimeout } :: [] := by
    rw [sendStep_open c hopen]
    dsimp only
    rw [hemp]
    rfl
  have hcons := handleMessage_cons hinv1 hpend1 (.parsed r)
  refine ⟨hpend1, ?_, ?_, ?_, ?_⟩
  · rw [hcons]
    dsimp only
    rw [sendStep_open c hopen]
    rfl
  · rw [hcons]
  · rw [hcons]
    dsimp only
    rw [sendStep_open c hopen]
  · rw [isOpen_handleMessage, isOpen_sendStep]
    exact hopen

theorem runPairs_settles (l : List (Command × ResultPayload)) :
    ∀ s : ConnState, Inv s → s.isOpen = true → s.pendingRequests = [] →
      (runPairs s l).settled = s.settled ++ expectedSettles s.requestCounter l := by
  induction l with
  | nil =>
      intro s _ _ _
      unfold runPairs expectedSettles
      rw [List.append_nil]
  | cons cr t ih =>
      obtain ⟨c, r⟩ := cr
      intro s hinv hopen hemp
      obtain ⟨hpend1, hset2, hemp2, hrc2, hopen2⟩ := send_then_reply s c r hinv hopen hemp
      have hinv2 : Inv (handleMessage (.parsed r) (sendStep c s)) :=
        inv_handleMessage (inv_sendStep hinv c) _
      have hih := ih (handleMessage (.parsed r) (sendStep c s)) hinv2 hopen2 hemp2
      unfold runPairs
      rw [hih, hset2, hrc2, List.append_assoc]
      simp only [expectedSettles, List.singleton_append]

/-! ### Claim theorems -/

/-- C1: the claim says the per-call timer registered by `send` is set to
the command's own timeout duration.  Counterexample: on a connection
constructed with responseTimeout 10000 ms, sending a navigate command
that carries a 5000 ms timeout registers a pending request whose timer
duration is 10000 ms — not the 5000 ms configured on the command. -/
theorem C1_timer_ignores_command_timeout_cex :
    ((run (ConnState.init 20000 10000)
        [.connect, .openEvt, .send (gotoCommand "page" (some 5000))]).pendingRequests.map
      (fun p => p.timeout)) = [10000]
    ∧ (gotoCommand "page" (some 5000)).timeout = 5000
    ∧ ((run (ConnState.init 20000 10000)
        [.connect, .openEvt, .send (gotoCommand "page" (some 5000))]).pendingRequests.map
      (fun p => p.timeout)) ≠ [(gotoCommand "page" (some 5000)).timeout] := by
  refine ⟨by decide, by decide, by decide⟩

/-- C1 (amended): the per-call timer registered by `send` is set to the
connection-level responseTimeout, regardless of the timeout carried by
the command itself; when that timer fires with the reply still missing,
the call is rejected with the command-timeout error. -/
theorem C1_timer_uses_connection_responseTimeout (s : ConnState) (cmd : Command)
    (hopen : s.isOpen = true) (hinv : Inv s) :
    (sendStep cmd s).pendingRequests =
      s.pendingRequests ++
        [{ id := s.requestCounter + 1, command := cmd, completed := false,
           timeout := s.responseTimeout }]
    ∧ (timerFireStep (s.requestCounter + 1) (sendStep cmd s)).settled =
        s.settled ++ [(s.requestCounter + 1, SettleOutcome.cmdTimeout)] := by
  constructor
  · rw [sendStep_open cmd hopen]
  · have hinv1 : Inv (sendStep cmd s) := inv_sendStep hinv cmd
    have hmem : s.requestCounter + 1 ∈ (sendStep cmd s).activeTimers := by
      rw [sendStep_open cmd hopen]
      dsimp only
      exact List.mem_append.mpr (Or.inr (List.mem_singleton.mpr rfl))
    rw [timerFire_effect hinv1 hmem]
    dsimp only
    rw [sendStep_open cmd hopen]

theorem C1_timer_uses_connection_responseTimeout_witness :
    (sendStep (gotoCommand "page" (some 5000))
        (run (ConnState.init 20000 10000) [.connect, .openEvt])).pendingRequests =
      (run (ConnState.init 20000 10000) [.connect, .openEvt]).pendingRequests ++
        [{ id := (run (ConnState.init 20000 10000) [.connect, .openEvt]).requestCounter + 1,
           command := gotoCommand "page" (some 5000), completed := false,
           timeout := (run (ConnState.init 20000 10000) [.connect, .openEvt]).responseTimeout }]
    ∧ (timerFireStep
          ((run (ConnState.init 20000 10000) [.connect, .openEvt]).requestCounter + 1)
          (sendStep (gotoCommand "page" (some 5000))
            (run (ConnState.init 20000 10000) [.connect, .openEvt]))).settled =
        (run (ConnState.init 20000 10000) [.connect, .openEvt]).settled ++
          [((run (ConnState.init 20000 10000) [.connect, .openEvt]).requestCounter + 1,
            SettleOutcome.cmdTimeout)] :=
  C1_timer_uses_connection_responseTimeout _ _ (by decide)
    (inv_reachable 20000 10000 [.connect, .openEvt])

/-- C2: over every trace of events from construction, each issued request
id is settled at most once; an issued id not yet settled still has its
live timer registered, and that timer firing settles it (exactly once);
and as long as every inbound message decodes, every settlement is one of
the three specified outcomes (decoded result, command timeout, or
connection fault). -/
theorem C2_exactly_once_settlement (pingMs respMs : Nat) (tr : List Event) (i : Nat) :
    settleCount (run (ConnState.init pingMs respMs) tr) i ≤ 1
    ∧ (1 ≤ i → i ≤ (run (ConnState.init pingMs respMs) tr).requestCounter →
        settleCount (run (ConnState.init pingMs respMs) tr) i = 0 →
        i ∈ (run (ConnState.init pingMs respMs) tr).activeTimers
        ∧ settleCount (step (run (ConnState.init pingMs respMs) tr) (.timerFire i)) i = 1)
    ∧ (tr.all Event.decodableMsg = true →
        ∀ e ∈ (run (ConnState.init pingMs respMs) tr).settled,
          e.2.isSpecOutcome = true) := by
  have hfin := inv_reachable pingMs respMs tr
  refine ⟨hfin.settleOnce i, ?_, ?_⟩
  · intro h1 h2 h0
    have hpend : i ∈ pendingIds (run (ConnState.init pingMs respMs) tr) :=
      (hfin.settleIffGone i h1 h2).mp h0
    have htim : i ∈ (run (ConnState.init pingMs respMs) tr).activeTimers := by
      rw [hfin.timersMatch]
      exact hpend
    refine ⟨htim, ?_⟩
    have hstep : step (run (ConnState.init pingMs respMs) tr) (.timerFire i) =
        timerFireStep i (run (ConnState.init pingMs respMs) tr) := rfl
    rw [hstep, timerFire_effect hfin htim]
    unfold settleCount
    dsimp only
    rw [List.countP_append, countP_single_pair, if_pos rfl]
    unfold settleCount at h0
    rw [h0]
  · intro hall
    exact specSettled_run (inv_init pingMs respMs)
      (fun e he => absurd he (List.not_mem_nil e)) tr hall

theorem C2_exactly_once_settlement_witness :
    settleCount (run (ConnState.init 20000 10000)
        [.connect, .openEvt, .send screenshotCommand]) 1 ≤ 1
    ∧ (1 ∈ (run (ConnState.init 20000 10000)
          [.connect, .openEvt, .send screenshotCommand]).activeTimers
       ∧ settleCount (step (run (ConnState.init 20000 10000)
            [.connect, .openEvt, .send screenshotCommand]) (.timerFire 1)) 1 = 1)
    ∧ (∀ e ∈ (run (ConnState.init 20000 10000)
          [.connect, .openEvt, .send screenshotCommand]).settled,
        e.2.isSpecOutcome = true) :=
  ⟨(C2_exactly_once_settlement 20000 10000
      [.connect, .openEvt, .send screenshotCommand] 1).1,
   (C2_exactly_once_settlement 20000 10000
      [.connect, .openEvt, .send screenshotCommand] 1).2.1
      (by decide) (by decide) (by decide),
   (C2_exactly_once_settlement 20000 10000
      [.connect, .openEvt, .send screenshotCommand] 1).2.2 (by decide)⟩

/-- C3: an inbound message is claimed by the head of the registry, whose
id is strictly smaller than every other pending id (strict FIFO — the
oldest still-pending call claims the next inbound message); and for
one-at-a-time sends where the peer replies exactly once per request in
send order, each request settles with the decoding of its own reply. -/
theorem C3_fifo_in_order_resolution (s1 s2 : ConnState) (p : PendingRequest)
    (rest : List PendingRequest) (d : RawData) (l : List (Command × ResultPayload))
    (hinv1 : Inv s1) (hinv2 : Inv s2) :
    (s1.pendingRequests = p :: rest →
      (∀ q ∈ rest, p.id < q.id)
      ∧ (handleMessage d s1).settled = s1.settled ++ [(p.id, messageOutcome d)]
      ∧ (handleMessage d s1).pendingRequests = rest)
    ∧ (s2.isOpen = true → s2.pendingRequests = [] →
      (runPairs s2 l).settled = s2.settled ++ expectedSettles s2.requestCounter l) := by
  constructor
  · intro hp
    have horder : ∀ q ∈ rest, p.id < q.id := by
      have hs := hinv1.idsSorted
      rw [hp, List.pairwise_cons] at hs
      exact hs.1
    refine ⟨horder, ?_, ?_⟩ <;> rw [handleMessage_cons hinv1 hp d]
  · intro hopen hemp
    exact runPairs_settles l s2 hinv2 hopen hemp

theorem C3_fifo_in_order_resolution_witness :
    (handleMessage (.parsed { success := some true })
        (run (ConnState.init 20000 10000)
          [.connect, .openEvt, .send (clickCommand 3 4)])).settled =
      (run (ConnState.init 20000 10000)
          [.connect, .openEvt, .send (clickCommand 3 4)]).settled ++
        [(1, messageOutcome (.parsed { success := some true }))]
    ∧ (runPairs (run (ConnState.init 20000 10000) [.connect, .openEvt])
          [(typeCommand "hi", { success := some true }),
           (scrollCommand 0 100, { success := some false })]).settled =
        (run (ConnState.init 20000 10000) [.connect, .openEvt]).settled ++
          expectedSettles
            (run (ConnState.init 20000 10000) [.connect, .openEvt]).requestCounter
            [(typeCommand "hi", { success := some true }),
             (scrollCommand 0 100, { success := some false })] :=
  ⟨((C3_fifo_in_order_resolution
      (run (ConnState.init 20000 10000) [.connect, .openEvt, .send (clickCommand 3 4)])
      (run (ConnState.init 20000 10000) [.connect, .openEvt])
      { id := 1, command := clickCommand 3 4, completed := false, timeout := 10000 }
      [] (.parsed { success := some true })
      [(typeCommand "hi", { success := some true }),
       (scrollCommand 0 100, { success := some false })]
      (inv_reachable 20000 10000 [.connect, .openEvt, .send (clickCommand 3 4)])
      (inv_reachable 20000 10000 [.connect, .openEvt])).1 (by decide)).2.1,
   (C3_fifo_in_order_resolution
      (run (ConnState.init 20000 10000) [.connect, .openEvt, .send (clickCommand 3 4)])
      (run (ConnState.init 20000 10000) [.connect, .openEvt])
      { id := 1, command := clickCommand 3 4, completed := false, timeout := 10000 }
      [] (.parsed { success := some true })
      [(typeCommand "hi", { success := some true }),
       (scrollCommand 0 100, { success := some false })]
      (inv_reachable 20000 10000 [.connect, .openEvt, .send (clickCommand 3 4)])
      (inv_reachable 20000 10000 [.connect, .openEvt])).2 (by decide) (by decide)⟩

/-- C4: the claim says the heartbeat monitor is stopped as a side effect
of the transport error event as well as of the close event.
Counterexample: with one call outstanding and the heartbeat running, the
error handler rejects the call but leaves the ping interval installed —
only the close handler stops it. -/
theorem C4_error_keeps_heartbeat_cex :
    (run (ConnState.init 20000 10000)
        [.connect, .openEvt, .send screenshotCommand]).pingActive = true
    ∧ (run (ConnState.init 20000 10000)
        [.connect, .openEvt, .send screenshotCommand]).pendingRequests.length = 1
    ∧ (handleError "boom" (run (ConnState.init 20000 10000)
        [.connect, .openEvt, .send screenshotCommand])).settled =
      [(1, SettleOutcome.connError "boom")]
    ∧ (handleError "boom" (run (ConnState.init 20000 10000)
        [.connect, .openEvt, .send screenshotCommand])).pingActive = true := by
  refine ⟨by decide, by decide, by decide, by decide⟩

/-- C4 (amended): a transport error event rejects every outstanding call
with the connection-error fault, clears their timers and empties the
registry but leaves the heartbeat running; an unexpected close event
rejects every outstanding call with the connection-closed fault, clears
their timers, empties the registry and stops the heartbeat. -/
theorem C4_fault_rejects_all_pending (s : ConnState) (msg : String) (hinv : Inv s) :
    (handleError msg s).settled =
      s.settled ++ (pendingIds s).map (fun i => (i, SettleOutcome.connError msg))
    ∧ (handleError msg s).pendingRequests = []
    ∧ (handleError msg s).activeTimers = []
    ∧ (handleError msg s).pingActive = s.pingActive
    ∧ (handleClose s).settled =
      s.settled ++ (pendingIds s).map (fun i => (i, SettleOutcome.connClosedUnexpected))
    ∧ (handleClose s).pendingRequests = []
    ∧ (handleClose s).activeTimers = []
    ∧ (handleClose s).pingActive = false := by
  refine ⟨?_, rfl, ?_, rfl, ?_, rfl, ?_, rfl⟩
  · show s.settled ++ rejectedSettles (SettleOutcome.connError msg) s = _
    rw [rejectedSettles_eq hinv]
  · exact timers_cleared hinv
  · show s.settled ++ rejectedSettles SettleOutcome.connClosedUnexpected s = _
    rw [rejectedSettles_eq hinv]
  · exact timers_cleared hinv

theorem C4_fault_rejects_all_pending_witness :
    (handleError "boom" (run (ConnState.init 20000 10000)
        [.connect, .openEvt, .send (clickCommand 1 2), .send (typeCommand "a")])).settled =
      (run (ConnState.init 20000 10000)
        [.connect, .openEvt, .send (clickCommand 1 2), .send (typeCommand "a")]).settled ++
        (pendingIds (run (ConnState.init 20000 10000)
          [.connect, .openEvt, .send (clickCommand 1 2), .send (typeCommand "a")])).map
          (fun i => (i, SettleOutcome.connError "boom"))
    ∧ (handleClose (run (ConnState.init 20000 10000)
        [.connect, .openEvt, .send (clickCommand 1 2), .send (typeCommand "a")])).pingActive =
      false :=
  ⟨(C4_fault_rejects_all_pending _ "boom" (inv_reachable 20000 10000
      [.connect, .openEvt, .send (clickCommand 1 2), .send (typeCommand "a")])).1,
   (C4_fault_rejects_all_pending _ "boom" (inv_reachable 20000 10000
      [.connect, .openEvt, .send (clickCommand 1 2), .send (typeCommand "a")])).2.2.2.2.2.2.2⟩

/-- C5: `close()` rejects every still-pending call with the closing
(connection-closed) error exactly once, clears their timers, stops the
heartbeat, and leaves the registry empty — no pending call remains
unresolved. -/
theorem C5_close_rejects_all_pending (s : ConnState) (hinv : Inv s) :
    (closeStep s).settled =
      s.settled ++ (pendingIds s).map (fun i => (i, SettleOutcome.connClosing))
    ∧ (closeStep s).pendingRequests = []
    ∧ (closeStep s).activeTimers = []
    ∧ (closeStep s).pingActive = false
    ∧ ∀ i ∈ pendingIds s, settleCount (closeStep s) i = 1 := by
  refine ⟨?_, rfl, ?_, rfl, ?_⟩
  · show s.settled ++ rejectedSettles SettleOutcome.connClosing s = _
    rw [rejectedSettles_eq hinv]
  · exact timers_cleared hinv
  · intro i hi
    have hb := mem_pendingIds_bounds hinv hi
    have h0 : settleCount s i = 0 := (hinv.settleIffGone i hb.1 hb.2).mpr hi
    show (s.settled ++ rejectedSettles SettleOutcome.connClosing s).countP
        (fun e => e.1 == i) = 1
    rw [settleCount_after_rejectAll hinv _ i, h0,
      List.count_eq_one_of_mem hinv.idsNodup hi]

theorem C5_close_rejects_all_pending_witness :
    (closeStep (run (ConnState.init 20000 10000)
        [.connect, .openEvt, .send (clickCommand 1 2), .send (typeCommand "a")])).settled =
      (run (ConnState.init 20000 10000)
        [.connect, .openEvt, .send (clickCommand 1 2), .send (typeCommand "a")]).settled ++
        (pendingIds (run (ConnState.init 20000 10000)
          [.connect, .openEvt, .send (clickCommand 1 2), .send (typeCommand "a")])).map
          (fun i => (i, SettleOutcome.connClosing))
    ∧ (closeStep (run (ConnState.init 20000 10000)
        [.connect, .openEvt, .send (clickCommand 1 2),
         .send (typeCommand "a")])).pendingRequests = [] :=
  ⟨(C5_close_rejects_all_pending _ (inv_reachable 20000 10000
      [.connect, .openEvt, .send (clickCommand 1 2), .send (typeCommand "a")])).1,
   (C5_close_rejects_all_pending _ (inv_reachable 20000 10000
      [.connect, .openEvt, .send (clickCommand 1 2), .send (typeCommand "a")])).2.1⟩

/-- C6: the claim says two live sockets never exist concurrently for one
manager.  Counterexample: a second `connect` issued while the first
socket is still connecting (so `isOpen` is false) constructs a second
WebSocket without terminating the first — after two connects, two live
sockets exist for the same manager instance. -/
theorem C6_second_socket_while_live_cex :
    (run (ConnState.init 20000 10000) [.connect]).sockets =
      [{ sid := 0, state := .connecting }]
    ∧ (run (ConnState.init 20000 10000) [.connect, .connect]).sockets =
      [{ sid := 0, state := .connecting }, { sid := 1, state := .connecting }]
    ∧ ((run (ConnState.init 20000 10000) [.connect, .connect]).sockets.filter
        Socket.isLive).length = 2 := by
  refine ⟨by decide, by decide, by decide⟩

/-- C6 (amended): `connect` while the socket is open is a no-op; but
whenever the connection is not open (including while a previous socket
is still connecting), `connect` constructs a fresh socket and repoints
the manager at it without terminating any previously created socket, so
two live sockets can coexist. -/
theorem C6_connect_noop_only_when_open (s1 s2 : ConnState) :
    (s1.isOpen = true → connectStep s1 = s1)
    ∧ (s2.isOpen = false →
        (connectStep s2).sockets =
          s2.sockets ++ [{ sid := s2.nextSid, state := .connecting }]
        ∧ (connectStep s2).conn = some s2.nextSid) := by
  constructor
  · intro h
    unfold connectStep
    rw [if_pos h]
  · intro h
    have hn : ¬(s2.isOpen = true) := by rw [h]; exact Bool.false_ne_true
    unfold connectStep
    rw [if_neg hn]
    exact ⟨rfl, rfl⟩

theorem C6_connect_noop_only_when_open_witness :
    connectStep (run (ConnState.init 20000 10000) [.connect, .openEvt]) =
      run (ConnState.init 20000 10000) [.connect, .openEvt]
    ∧ (connectStep (run (ConnState.init 20000 10000) [.connect])).sockets =
        (run (ConnState.init 20000 10000) [.connect]).sockets ++
          [{ sid := (run (ConnState.init 20000 10000) [.connect]).nextSid,
             state := .connecting }] :=
  ⟨(C6_connect_noop_only_when_open
      (run (ConnState.init 20000 10000) [.connect, .openEvt])
      (run (ConnState.init 20000 10000) [.connect])).1 (by decide),
   ((C6_connect_noop_only_when_open
      (run (ConnState.init 20000 10000) [.connect, .openEvt])
      (run (ConnState.init 20000 10000) [.connect])).2 (by decide)).1⟩

/-- C7: a heartbeat tick on an open connection with an acknowledgment
observed since the last tick resets the liveness flag and emits a probe;
a tick with no acknowledgment observed terminates the socket, and the
close event this triggers rejects every outstanding call with the
connection-fault error and empties the registry. -/
theorem C7_heartbeat_tick (s1 s2 : ConnState) (hinv2 : Inv s2)
    (hopen1 : s1.isOpen = true) (hopen2 : s2.isOpen = true) :
    (s1.isAlive = true →
      pingTick s1 = ({ s1 with isAlive := false }, TickAction.probed))
    ∧ (s2.isAlive = false →
      (pingTick s2).2 = TickAction.terminated
      ∧ (handleClose (pingTick s2).1).settled =
          s2.settled ++
            (pendingIds s2).map (fun i => (i, SettleOutcome.connClosedUnexpected))
      ∧ (handleClose (pingTick s2).1).pendingRequests = []
      ∧ (handleClose (pingTick s2).1).activeTimers = []) := by
  constructor
  · intro halive
    have hno : ¬(s1.isOpen = false) := by rw [hopen1]; decide
    have hna : ¬(s1.isAlive = false) := by rw [halive]; decide
    unfold pingTick
    rw [if_neg hno, if_neg hna]
  · intro hdead
    have hno : ¬(s2.isOpen = false) := by rw [hopen2]; decide
    unfold pingTick
    rw [if_neg hno, if_pos hdead]
    cases hc : s2.conn with
    | none =>
        dsimp only
        refine ⟨rfl, ?_, rfl, ?_⟩
        · show s2.settled ++ rejectedSettles SettleOutcome.connClosedUnexpected s2 = _
          rw [rejectedSettles_eq hinv2]
        · exact timers_cleared hinv2
    | some sid =>
        dsimp only
        refine ⟨rfl, ?_, rfl, ?_⟩
        · show s2.settled ++ rejectedSettles SettleOutcome.connClosedUnexpected s2 = _
          rw [rejectedSettles_eq hinv2]
        · show s2.activeTimers.filter (fun t => !(rejectedIds s2).contains t) = []
          exact timers_cleared hinv2

theorem C7_heartbeat_tick_witness :
    pingTick (run (ConnState.init 20000 10000) [.connect, .openEvt]) =
      ({ run (ConnState.init 20000 10000) [.connect, .openEvt] with isAlive := false },
        TickAction.probed)
    ∧ (pingTick (run (ConnState.init 20000 10000)
        [.connect, .openEvt, .send (clickCommand 1 2), .tick])).2 =
      TickAction.terminated
    ∧ (handleClose (pingTick (run (ConnState.init 20000 10000)
        [.connect, .openEvt, .send (clickCommand 1 2), .tick])).1).pendingRequests = [] :=
  ⟨(C7_heartbeat_tick
      (run (ConnState.init 20000 10000) [.connect, .openEvt])
      (run (ConnState.init 20000 10000) [.connect, .openEvt, .send (clickCommand 1 2), .tick])
      (inv_reachable 20000 10000 [.connect, .openEvt, .send (clickCommand 1 2), .tick])
      (by decide) (by decide)).1 (by decide),
   ((C7_heartbeat_tick
      (run (ConnState.init 20000 10000) [.connect, .openEvt])
      (run (ConnState.init 20000 10000) [.connect, .openEvt, .send (clickCommand 1 2), .tick])
      (inv_reachable 20000 10000 [.connect, .openEvt, .send (clickCommand 1 2), .tick])
      (by decide) (by decide)).2 (by decide)).1,
   ((C7_heartbeat_tick
      (run (ConnState.init 20000 10000) [.connect, .openEvt])
      (run (ConnState.init 20000 10000) [.connect, .openEvt, .send (clickCommand 1 2), .tick])
      (inv_reachable 20000 10000 [.connect, .openEvt, .send (clickCommand 1 2), .tick])
      (by decide) (by decide)).2 (by decide)).2.2.1⟩

/-- C8: the claim says the navigate verb defaults to a longer timeout
than click/type/scroll.  Counterexample: with no explicit timeout, the
goto command carries the same 5000 ms default as the click, type and
scroll commands, so navigate's default is not longer. -/
theorem C8_navigate_default_not_longer_cex :
    (gotoCommand "page" none).timeout = 5000
    ∧ (clickCommand 1 2).timeout = 5000
    ∧ (typeCommand "hi").timeout = 5000
    ∧ (scrollCommand 0 100).timeout = 5000
    ∧ ¬((gotoCommand "page" none).timeout > (clickCommand 1 2).timeout) := by
  refine ⟨rfl, rfl, rfl, rfl, by decide⟩

/-- C8 (amended): with no explicit timeout supplied, the facade verbs all
build Commands with the same 5000 ms default timeout (goto defaults its
option to 5000 explicitly; the others inherit the Command constructor's
5000 default), navigate included. -/
theorem C8_default_timeouts_equal (url text : String) (x y dx dy : Int) :
    (gotoCommand url none).timeout = 5000
    ∧ (clickCommand x y).timeout = 5000
    ∧ (typeCommand text).timeout = 5000
    ∧ (scrollCommand dx dy).timeout = 5000
    ∧ screenshotCommand.timeout = 5000 :=
  ⟨rfl, rfl, rfl, rfl, rfl⟩

/-- C9: the claim says every facade verb — resize-viewport included —
builds a typed Command and sends it through the connection manager.
Counterexample: setViewport performs no send at all; it returns a
locally constructed success Result without touching the connection. -/
theorem C9_setViewport_sends_nothing_cex :
    (setViewportAction { width := 1280, height := 720 }).isSend = false
    ∧ setViewportAction { width := 1280, height := 720 } =
      FacadeAction.localResult
        { success := some true, image := none, image_url := none,
          error_message := none } :=
  ⟨rfl, rfl⟩

/-- C9 (amended): navigate, click, type, scroll and capture-screenshot
each build a typed Command with the right action kind and hand it to the
connection manager, which registers it and resolves it with the decoding
of the wire reply; resize-viewport alone short-circuits, returning a
synthetic success Result and never reaching the connection. -/
theorem C9_facade_verbs (s : ConnState) (url text : String) (tmo : Option Nat)
    (x y dx dy : Int) (r : ResultPayload) (sz : ViewportSize)
    (hinv : Inv s) (hopen : s.isOpen = true) (hemp : s.pendingRequests = []) :
    (gotoAction url tmo).isSend = true
    ∧ (gotoCommand url tmo).action_type = ActionType.goto
    ∧ (clickAction x y).isSend = true
    ∧ (clickCommand x y).action_type = ActionType.click
    ∧ (typeAction text).isSend = true
    ∧ (typeCommand text).action_type = ActionType.typeText
    ∧ (scrollAction dx dy).isSend = true
    ∧ (scrollCommand dx dy).action_type = ActionType.scroll
    ∧ screenshotAction.isSend = true
    ∧ screenshotCommand.action_type = ActionType.screenshot
    ∧ (dispatch (gotoAction url tmo) s).pendingRequests =
        [{ id := s.requestCounter + 1, command := gotoCommand url tmo,
           completed := false, timeout := s.responseTimeout }]
    ∧ (handleMessage (.parsed r) (dispatch (gotoAction url tmo) s)).settled =
        s.settled ++ [(s.requestCounter + 1, SettleOutcome.result (Result.ofPayload r))]
    ∧ (setViewportAction sz).isSend = false
    ∧ dispatch (setViewportAction sz) s = s := by
  obtain ⟨h1, h2, _, _, _⟩ := send_then_reply s (gotoCommand url tmo) r hinv hopen hemp
  exact ⟨rfl, rfl, rfl, rfl, rfl, rfl, rfl, rfl, rfl, rfl, h1, h2, rfl, rfl⟩

theorem C9_facade_verbs_witness :
    (dispatch (gotoAction "page" none)
        (run (ConnState.init 20000 10000) [.connect, .openEvt])).pendingRequests =
      [{ id := 1, command := gotoCommand "page" none, completed := false,
         timeout := 10000 }]
    ∧ dispatch (setViewportAction { width := 800, height := 600 })
        (run (ConnState.init 20000 10000) [.connect, .openEvt]) =
      run (ConnState.init 20000 10000) [.connect, .openEvt] :=
  ⟨(C9_facade_verbs (run (ConnState.init 20000 10000) [.connect, .openEvt])
      "page" "hi" none 1 2 0 100 { success := some true } { width := 800, height := 600 }
      (inv_reachable 20000 10000 [.connect, .openEvt])
      (by decide) (by decide)).2.2.2.2.2.2.2.2.2.2.1,
   (C9_facade_verbs (run (ConnState.init 20000 10000) [.connect, .openEvt])
      "page" "hi" none 1 2 0 100 { success := some true } { width := 800, height := 600 }
      (inv_reachable 20000 10000 [.connect, .openEvt])
      (by decide) (by decide)).2.2.2.2.2.2.2.2.2.2.2.2.2⟩

/-- C10: an inbound message that fails to decode settles the oldest
still-pending call with the decode error: that call is removed from the
registry, its timer is cleared, its future rejected with the thrown
error — a fourth per-call outcome — and every other pending call (and
its timer) is left untouched. -/
theorem C10_decode_failure_rejects_oldest (s : ConnState) (p : PendingRequest)
    (rest : List PendingRequest) (err : String) (hinv : Inv s)
    (hp : s.pendingRequests = p :: rest) :
    (handleMessage (.malformed err) s).pendingRequests = rest
    ∧ (handleMessage (.malformed err) s).settled =
        s.settled ++ [(p.id, SettleOutcome.decodeErr err)]
    ∧ (handleMessage (.malformed err) s).activeTimers = rest.map (fun q => q.id)
    ∧ p.id ∉ (handleMessage (.malformed err) s).activeTimers := by
  rw [handleMessage_cons hinv hp (.malformed err)]
  refine ⟨rfl, rfl, rfl, ?_⟩
  intro hmem
  obtain ⟨q, hq, hqid⟩ := List.mem_map.mp hmem
  have hs := hinv.idsSorted
  rw [hp, List.pairwise_cons] at hs
  exact Nat.ne_of_lt (hs.1 q hq) hqid.symm

theorem C10_decode_failure_rejects_oldest_witness :
    (handleMessage (.malformed "bad json")
        (run (ConnState.init 20000 10000)
          [.connect, .openEvt, .send (clickCommand 1 2),
           .send (typeCommand "a")])).pendingRequests =
      [{ id := 2, command := typeCommand "a", completed := false, timeout := 10000 }]
    ∧ (handleMessage (.malformed "bad json")
        (run (ConnState.init 20000 10000)
          [.connect, .openEvt, .send (clickCommand 1 2),
           .send (typeCommand "a")])).settled =
      (run (ConnState.init 20000 10000)
          [.connect, .openEvt, .send (clickCommand 1 2),
           .send (typeCommand "a")]).settled ++
        [(1, SettleOutcome.decodeErr "bad json")]
    ∧ (1 : Nat) ∉ (handleMessage (.malformed "bad json")
        (run (ConnState.init 20000 10000)
          [.connect, .openEvt, .send (clickCommand 1 2),
           .send (typeCommand "a")])).activeTimers :=
  ⟨(C10_decode_failure_rejects_oldest
      (run (ConnState.init 20000 10000)
        [.connect, .openEvt, .send (clickCommand 1 2), .send (typeCommand "a")])
      { id := 1, command := clickCommand 1 2, completed := false, timeout := 10000 }
      [{ id := 2, command := typeCommand "a", completed := false, timeout := 10000 }]
      "bad json"
      (inv_reachable 20000 10000
        [.connect, .openEvt, .send (clickCommand 1 2), .send (typeCommand "a")])
      (by decide)).1,
   (C10_decode_failure_rejects_oldest
      (run (ConnState.init 20000 10000)
        [.connect, .openEvt, .send (clickCommand 1 2), .send (typeCommand "a")])
      { id := 1, command := clickCommand 1 2, completed := false, timeout := 10000 }
      [{ id := 2, command := typeCommand "a", completed := false, timeout := 10000 }]
      "bad json"
      (inv_reachable 20000 10000
        [.connect, .openEvt, .send (clickCommand 1 2), .send (typeCommand "a")])
      (by decide)).2.1,
   (C10_decode_failure_rejects_oldest
      (run (ConnState.init 20000 10000)
        [.connect, .openEvt, .send (clickCommand 1 2), .send (typeCommand "a")])
      { id := 1, command := clickCommand 1 2, completed := false, timeout := 10000 }
      [{ id := 2, command := typeCommand "a", completed := false, timeout := 10000 }]
      "bad json"
      (inv_reachable 20000 10000
        [.connect, .openEvt, .send (clickCommand 1 2), .send (typeCommand "a")])
      (by decide)).2.2.2⟩

end Waypoint
